import Mathlib

/-!
Shallow embedding of the enlightenkitsap.org static-site generator and
HTTP file server, with theorems checking the natural-language
specification against the code.

Files embedded:
  - `handlers.go`: `withProxy`, `withBasicCacheControl`, `withCacheControl`,
    `withContentEncoding`.
  - `config.go`: `parseArgsAndEnv`, `parseEnvVars`.
  - `internal/site.go` (current version) and `internal/main.go`:
    `writeFiles`, `cleanDest`, `addMain`, `addImages`, `addImage`,
    `addPage`, `addFile`, `addEvents`, `addFutureEvents`, `addPastEvents`,
    `createEventGroup`, `addEventFile`, `addEvent`, `addResource`.

Modelling conventions: machine-level byte slices are `List Nat`; the
embedded read-only source filesystem and the external `text/template`
library are an explicit `Env` of functions; filesystem writes are a state
`St` (list of written destination files) threaded explicitly; a Go
`error` result is `Option String` (`some` = error).  Go `int` is `Int`.
-/

namespace Enlighten

abbrev Bytes := List Nat

/-- Go `path.Join` for the concrete segment shapes used by the generator:
non-empty segments joined by "/" (no "." or ".." cleaning is needed for
the paths the code builds). -/
def pathJoin (ps : List String) : String :=
  String.intercalate "/" (ps.filter (fun p => p ≠ ""))

/-- Helper for `pathExt`: walk the reversed character list of a path,
accumulating the characters seen until the first '.' (stopping at '/'). -/
def extFromRev (acc : List Char) : List Char → String
  | [] => ""
  | c :: rest =>
    if c = '/' then ""
    else if c = '.' then String.mk ('.' :: acc)
    else extFromRev (c :: acc) rest

/-- Go `path.Ext`: the suffix beginning at the final dot in the final
slash-separated element of the path, or "" when there is no dot. -/
def pathExt (s : String) : String :=
  extFromRev [] s.data.reverse

/-- Helper for `strContains`: does `sub` occur in the haystack list? -/
def containsSubAux (sub : List Char) : List Char → Bool
  | [] => sub.isEmpty
  | c :: rest => List.isPrefixOf sub (c :: rest) || containsSubAux sub rest

/-- Go `strings.Contains s sub`. -/
def strContains (s sub : String) : Bool :=
  containsSubAux sub.data s.data

/-- Whitespace characters trimmed by Go `strings.TrimSpace` (the ASCII
ones occurring in rendered templates). -/
def isSpaceChar (c : Char) : Bool :=
  c = ' ' || c = '\t' || c = '\n' || c = '\r'

/-- Go `strings.TrimSpace`. -/
def goTrim (s : String) : String :=
  String.mk (((s.data.dropWhile isSpaceChar).reverse.dropWhile isSpaceChar).reverse)

/-- The bytes of a rendered string (`buf.Bytes()` after writing a string). -/
def strBytes (s : String) : Bytes :=
  s.data.map Char.toNat

/-! ## HTTP middleware (`handlers.go`) -/

structure Request where
  path : String
  acceptEncoding : String
deriving DecidableEq

structure Response where
  headers : List (String × String)
  body : Bytes
deriving DecidableEq

abbrev Handler := Request → Response

/-- `handlers.go` `withProxy`: rewrite the request path from `src` to
`dest` before delegating to the wrapped handler. -/
def withProxy (h : Handler) (src dest : String) : Handler :=
  fun r => if r.path = src then h { r with path := dest } else h r

/-- `handlers.go` `withCacheControl`: add a `Cache-Control: max-age=N`
header (Go `Header().Add`) and delegate.  The Go `time.Duration` argument
is modelled by its whole number of seconds. -/
def withCacheControl (h : Handler) (seconds : Nat) : Handler :=
  let maxAge := "max-age=" ++ toString seconds
  fun r =>
    let resp := h r
    { resp with headers := ("Cache-Control", maxAge) :: resp.headers }

/-- `handlers.go` `withBasicCacheControl`: one-day max-age for `.html`
and extensionless paths, one-year max-age otherwise. -/
def withBasicCacheControl (h : Handler) : Handler :=
  let day : Nat := 24 * 60 * 60
  let year : Nat := 365 * day
  fun r =>
    let ext := pathExt r.path
    let h2 := withCacheControl h year
    let h3 := if ext = ".html" || ext = "" then withCacheControl h day else h2
    h3 r

/-- `handlers.go` `withContentEncoding`: when the `Accept-Encoding`
header contains "gzip", set `Content-Encoding: gzip` and compress the
wrapped handler's entire body through the gzip writer; otherwise pass
through untouched.  The external `compress/gzip` library is the
`gzipCompress` parameter. -/
def withContentEncoding (gzipCompress : Bytes → Bytes) (h : Handler) : Handler :=
  fun r =>
    let enc := r.acceptEncoding
    if strContains enc "gzip" then
      let resp := h r
      { headers := ("Content-Encoding", "gzip") :: resp.headers
        body := gzipCompress resp.body }
    else h r

/-! ## Server configuration (`config.go`) -/

structure config where
  port : String
deriving DecidableEq

/-- Go `strings.ToUpper`. -/
def goUpper (s : String) : String :=
  String.mk (s.data.map Char.toUpper)

/-- Go `strings.ReplaceAll s "-" "_"` (single-character pattern). -/
def replaceDash (s : String) : String :=
  String.mk (s.data.map (fun c => if c = '-' then '_' else c))

/-- Does the string `p` begin the string `s`? -/
def strHasPref (p s : String) : Bool :=
  List.isPrefixOf p.data s.data

/-- Drop the first `n` characters of a string. -/
def strDrop (n : Nat) (s : String) : String :=
  String.mk (s.data.drop n)

/-- The standard-library `flag` parse over the single string flag
`-port` (default threaded as the accumulator): accepts `-port v`,
`--port v`, `-port=v` and `--port=v`; any other argument is a parse
failure (the flag set exits on error). -/
def fsParse : List String → String → Option String
  | [], port => some port
  | [a], _port =>
    if a = "-port" ∨ a = "--port" then none
    else if strHasPref "-port=" a then some (strDrop 6 a)
    else if strHasPref "--port=" a then some (strDrop 7 a)
    else none
  | a :: b :: rest, _port =>
    if a = "-port" ∨ a = "--port" then fsParse rest b
    else if strHasPref "-port=" a then fsParse (b :: rest) (strDrop 6 a)
    else if strHasPref "--port=" a then fsParse (b :: rest) (strDrop 7 a)
    else none

/-- `config.go` `parseEnvVars`: for the (single) flag, look up the
environment variable named by uppercasing the flag name and replacing
hyphens with underscores; when set, its value overrides the flag's
current value. -/
def parseEnvVars (envv : String → Option String) (portVal : String) : String :=
  let upperName := goUpper "port"
  let name := replaceDash upperName
  match envv name with
  | some v => v
  | none => portVal

/-- `config.go` `parseArgsAndEnv`: the first argument is the program
name (error when absent), the remaining arguments are parsed against the
flag set with default port "8000", then environment variables are
applied on top. -/
def parseArgsAndEnv (envv : String → Option String) (args : List String) : Option config :=
  match args with
  | [] => none
  | _ :: programArgs =>
    match fsParse programArgs "8000" with
    | none => none
    | some port => some { port := parseEnvVars envv port }

/-! ## Site generator (`internal/main.go`, `internal/site.go`) -/

/-- `internal/main.go` constants. -/
def kiloByte : Int := 1000 * 1

def megaByte : Int := 1000 * kiloByte

def kB50 : Int := 50 * kiloByte

def mB10 : Int := 10 * megaByte

def resourcesDir : String := "resources"

/-- One entry of a directory listing (`fs.DirEntry`). -/
structure DirEntry where
  name : String
  isDir : Bool
deriving DecidableEq

/-- One year's event group (`EventGroup`): the year label and the two
accumulated rendered-text buffers. -/
structure EventGroup where
  Year : String
  Events : String
  Resources : String
deriving DecidableEq

/-- The dynamic page data passed through Go `interface{}`: `nil` for the
fixed pages, one `EventGroup` for the future-events page, a slice of
`EventGroup` for the past-events pages. -/
inductive PageData where
  | nilData : PageData
  | group (eg : EventGroup) : PageData
  | groups (egs : List EventGroup) : PageData
deriving DecidableEq

/-- The environment: the embedded read-only source filesystem
(`embed.FS`) and the external `text/template` library.
`execTemplate tmplName data` models parsing an event file's bytes and
executing its named sub-template (`none` = parse/lookup/execute error);
`renderMain contentPath pageName data` models `lookupMainTemplate`
followed by `Execute` with the `Data{Site, Page}` context. -/
structure Env where
  readFile : String → Option Bytes
  readDir : String → Option (List DirEntry)
  execTemplate : String → Bytes → Option String
  renderMain : String → String → PageData → Option String

/-- The destination state: the files written so far, in write order. -/
abbrev St := List (String × Bytes)

/-- Result of one stateful step: the state after the step and an
optional error (writes made before a failure persist, as on a real
filesystem). -/
abbrev Res := St × Option String

/-- `os.WriteFile` through the injected `writeFile` callback: record the
written destination file. -/
def writeFileEff (name : String) (data : Bytes) (st : St) : Res :=
  (st ++ [(name, data)], none)

/-- `os.MkdirAll` through the injected `mkdirAll` callback: directory
creation succeeds and does not change any file contents. -/
def mkdirAllEff (_p : String) (st : St) : Res :=
  (st, none)

/-- Is `p` the path `root` or inside the subtree rooted at `root`? -/
def underPath (root p : String) : Bool :=
  p = root || String.isPrefixOf (root ++ "/") p

/-- `os.RemoveAll` through the injected `removeAll` callback: delete
every file at or under the given path. -/
def removeAllEff (p : String) (st : St) : Res :=
  (st.filter (fun e => !underPath p e.1), none)

/-- The `Site` template context of `internal/site.go` /
`internal/main.go` (the function-valued fields and `fSys` live in `Env`
and the effect functions). -/
structure Site where
  dest : String
  Name : String
  Description : String
  OneResource : Bool
deriving DecidableEq

/-- `site.go` `addImage`: refuse directories; read the image; fail when
the byte length exceeds a positive `maxSize`; otherwise copy the bytes
verbatim to `dest/destDir/name`.  Note the source checks the size before
checking the read error. -/
def Site.addImage (s : Site) (env : Env) (f : DirEntry) (src destDir : String)
    (maxSize : Int) (st : St) : Res :=
  if f.isDir then (st, some "will not read directory from image folder")
  else
    let n := f.name
    let srcP := pathJoin [src, n]
    let rb := env.readFile srcP
    let b := rb.getD []
    if (b.length : Int) > maxSize ∧ maxSize > 0 then
      (st, some ("image " ++ n ++ " larger than " ++ toString maxSize ++ " bytes"))
    else if rb.isNone then (st, some "reading image")
    else
      let dest := pathJoin [s.dest, destDir]
      match mkdirAllEff dest st with
      | (st1, some e) => (st1, some ("making directory: " ++ e))
      | (st1, none) =>
        let destP := pathJoin [dest, n]
        match writeFileEff destP b st1 with
        | (st2, some e) => (st2, some ("writing image: " ++ e))
        | (st2, none) => (st2, none)

/-- Body of the loop in `site.go` `addImages`: each entry must be a
non-directory with extension `.png` or `.jpg` and is added via
`addImage`. -/
def Site.addImagesLoop (s : Site) (env : Env) (srcDir destDir : String)
    (maxSize : Int) : List DirEntry → St → Res
  | [], st => (st, none)
  | f :: rest, st =>
    let nn := f.name
    if f.isDir then (st, some ("unexpected directory for images: " ++ nn))
    else
      let ext := pathExt nn
      if ext = ".png" ∨ ext = ".jpg" then
        match s.addImage env f srcDir destDir maxSize st with
        | (st1, some e) => (st1, some ("adding image: " ++ e))
        | (st1, none) => s.addImagesLoop env srcDir destDir maxSize rest st1
      else (st, some ("unexpected image extension: " ++ ext ++ " (" ++ nn ++ ")"))

/-- `site.go` `addImages`: list the source image directory, create the
destination directory, and add every entry. -/
def Site.addImages (s : Site) (env : Env) (srcDir destDir : String)
    (maxSize : Int) (st : St) : Res :=
  match env.readDir srcDir with
  | none => (st, some "reading image directory")
  | some entries =>
    match mkdirAllEff destDir st with
    | (st1, some e) => (st1, some ("creating image directory: " ++ e))
    | (st1, none) => s.addImagesLoop env srcDir destDir maxSize entries st1

/-- `site.go` `addFile`: render the content fragment at
`resources/srcDir/name` through the shared main-layout template set with
the page context, trim surrounding whitespace, and write the result to
`dest/name`. -/
def Site.addFile (s : Site) (env : Env) (srcDir name pageName : String)
    (data : PageData) (st : St) : Res :=
  match mkdirAllEff s.dest st with
  | (st1, some e) => (st1, some ("making directory: " ++ e))
  | (st1, none) =>
    let src := pathJoin [resourcesDir, srcDir, name]
    match env.renderMain src pageName data with
    | none => (st1, some ("template error for " ++ src))
    | some got =>
      let thin := goTrim got
      let dest := pathJoin [s.dest, name]
      match writeFileEff dest (strBytes thin) st1 with
      | (st2, some e) => (st2, some ("writing template: " ++ e))
      | (st2, none) => (st2, none)

/-- `site.go` `addPage`: build the `Page`/`Data` context and delegate to
`addFile`. -/
def Site.addPage (s : Site) (env : Env) (pageName srcDir srcName : String)
    (data : PageData) (st : St) : Res :=
  match s.addFile env srcDir srcName pageName data st with
  | (st1, some e) => (st1, some ("writing file " ++ srcName ++ ", " ++ e))
  | (st1, none) => (st1, none)

/-- `site.go` `addEvent`: read the event file and, for each of the two
parts (`event` into the `Events` buffer, `resources` into the
`Resources` buffer), parse the file, look up the named sub-template,
execute it and append the trimmed output to the buffer. -/
def Site.addEvent (_s : Site) (env : Env) (eg : EventGroup) (src : String)
    (st : St) : EventGroup × Res :=
  match env.readFile src with
  | none => (eg, st, some "reading event file")
  | some data =>
    match env.execTemplate "event" data with
    | none => (eg, st, some ("no template event in " ++ src))
    | some r1 =>
      let eg1 := { eg with Events := eg.Events ++ goTrim r1 }
      match env.execTemplate "resources" data with
      | none => (eg1, st, some ("no template resources in " ++ src))
      | some r2 =>
        ({ eg1 with Resources := eg1.Resources ++ goTrim r2 }, st, none)

/-- `site.go` `addResource`: read the document and copy it verbatim to
`dest/resources/events/year/name` (no size check appears in the
source). -/
def Site.addResource (s : Site) (env : Env) (year name dir : String)
    (st : St) : Res :=
  let srcP := pathJoin [dir, name]
  match env.readFile srcP with
  | none => (st, some "reading resource")
  | some b =>
    let dest := pathJoin ["resources", "events", year]
    let destP := pathJoin [s.dest, dest]
    match mkdirAllEff destP st with
    | (st1, some e) => (st1, some ("making directory: " ++ e))
    | (st1, none) =>
      let destF := pathJoin [destP, name]
      match writeFileEff destF b st1 with
      | (st2, some e) => (st2, some ("writing resource: " ++ e))
      | (st2, none) => (st2, none)

/-- `site.go` `addEventFile`: dispatch on the file extension — `.html`
renders the event, `.jpg` copies the image under the 50KB cap, the five
document extensions copy the resource, anything else is an
unsupported-file-type error. -/
def Site.addEventFile (s : Site) (env : Env) (eg : EventGroup)
    (dir year : String) (ff : DirEntry) (st : St) : EventGroup × Res :=
  let nn := ff.name
  let ext := pathExt nn
  if ext = ".html" then
    let src := pathJoin [dir, nn]
    match s.addEvent env eg src st with
    | (eg1, st1, some e) => (eg1, st1, some ("adding event: " ++ e))
    | (eg1, st1, none) => (eg1, st1, none)
  else if ext = ".jpg" then
    let destDir := pathJoin ["images", "events", year]
    match s.addImage env ff dir destDir kB50 st with
    | (st1, some e) => (eg, st1, some ("adding resource: " ++ e))
    | (st1, none) => (eg, st1, none)
  else if ext = ".docx" ∨ ext = ".pdf" ∨ ext = ".ppt" ∨ ext = ".pptx" ∨ ext = ".xlsx" then
    match s.addResource env year nn dir st with
    | (st1, some e) => (eg, st1, some ("adding resource: " ++ e))
    | (st1, none) => (eg, st1, none)
  else
    (eg, st, some ("unsupported file type: " ++ ext ++ " (" ++ nn ++ ")"))

/-- The loop in `site.go` `createEventGroup` over the (already reversed)
file listing. -/
def Site.eventFilesLoop (s : Site) (env : Env) (root year : String) :
    List DirEntry → EventGroup → St → EventGroup × Res
  | [], eg, st => (eg, st, none)
  | ff :: rest, eg, st =>
    match s.addEventFile env eg root year ff st with
    | (eg1, st1, some e) => (eg1, st1, some ("adding file to event group: " ++ e))
    | (eg1, st1, none) => s.eventFilesLoop env root year rest eg1 st1

/-- `site.go` `createEventGroup`: refuse non-directories, list the year
folder, reverse the listing, and add every file to a fresh group whose
`Year` is the folder name. -/
def Site.createEventGroup (s : Site) (env : Env) (dir : String)
    (f : DirEntry) (st : St) : EventGroup × Res :=
  let folderName := f.name
  let eg0 : EventGroup := { Year := folderName, Events := "", Resources := "" }
  if !f.isDir then (eg0, st, some ("unexpected folder: " ++ folderName))
  else
    let root := pathJoin [dir, folderName]
    match env.readDir root with
    | none => (eg0, st, some "reading folder")
    | some files =>
      let orderedFiles := files.reverse
      s.eventFilesLoop env root folderName orderedFiles eg0 st

/-- The loop in `site.go` `addPastEvents` accumulating one `EventGroup`
per year entry. -/
def Site.pastYearsLoop (s : Site) (env : Env) (eventsDir : String) :
    List DirEntry → List EventGroup → St → List EventGroup × Res
  | [], acc, st => (acc, st, none)
  | y :: rest, acc, st =>
    match s.createEventGroup env eventsDir y st with
    | (_, st1, some e) =>
      (acc, st1, some ("adding events for year " ++ y.name ++ ": " ++ e))
    | (yr, st1, none) => s.pastYearsLoop env eventsDir rest (acc ++ [yr]) st1

/-- `site.go` `addPastEvents`: list the past-events directory, reverse
the year listing, build each year's group, then render the two pages
with the group sequence as data. -/
def Site.addPastEvents (s : Site) (env : Env) (st : St) : Res :=
  let eventsDir := pathJoin [resourcesDir, "events", "past"]
  match env.readDir eventsDir with
  | none => (st, some "reading past events")
  | some yearEntries0 =>
    let yearEntries := yearEntries0.reverse
    match s.pastYearsLoop env eventsDir yearEntries [] st with
    | (_, st1, some e) => (st1, some e)
    | (yrs, st1, none) =>
      match s.addPage env "Past Events" "events" "past-events.html" (PageData.groups yrs) st1 with
      | (st2, some e) => (st2, some ("adding past events page: " ++ e))
      | (st2, none) =>
        match s.addPage env "Videos & Resources" "events" "videos-and-resources.html" (PageData.groups yrs) st2 with
        | (st3, some e) => (st3, some ("adding past events resources: " ++ e))
        | (st3, none) => (st3, none)

/-- `site.go` `addFutureEvents`: find the `future` entry of the events
directory, build its group, and render the future-events page. -/
def Site.addFutureEvents (s : Site) (env : Env) (st : St) : Res :=
  let eventsDir := pathJoin [resourcesDir, "events"]
  match env.readDir eventsDir with
  | none => (st, some "reading events")
  | some eventEntries =>
    match eventEntries.find? (fun de => de.name = "future") with
    | none => (st, some "futureEvents directory not found")
    | some futureEntry =>
      match s.createEventGroup env eventsDir futureEntry st with
      | (_, st1, some e) => (st1, some ("adding future events folder: " ++ e))
      | (e, st1, none) =>
        match s.addPage env "Upcoming Speakers" "events" "future-events.html" (PageData.group e) st1 with
        | (st2, some e2) => (st2, some ("adding future events page: " ++ e2))
        | (st2, none) => (st2, none)

/-- `site.go` `addEvents`: future events then past events. -/
def Site.addEvents (s : Site) (env : Env) (st : St) : Res :=
  match s.addFutureEvents env st with
  | (st1, some e) => (st1, some ("adding future events: " ++ e))
  | (st1, none) =>
    match s.addPastEvents env st1 with
    | (st2, some e) => (st2, some ("adding past events: " ++ e))
    | (st2, none) => (st2, none)

/-- The fixed page list in `site.go` `addMain`:
(srcDir, fileName, pageName). -/
def mainPages : List (String × String × String) :=
  [("", "home", "Home Page"),
   ("about", "board-members", "Board Members"),
   ("about", "contact-us", "Contact Us"),
   ("about", "donations", "Donations"),
   ("about", "location", "Where Are We Located?"),
   ("about", "mission-statement", "Mission Statement"),
   ("about", "purpose-statement", "Purpose Statement"),
   ("about", "volunteers", "Volunteers"),
   ("events", "calendar", "Calendar"),
   ("events", "sign-up", "Sign Up For Events")]

/-- The fixed image-directory list in `site.go` `addMain`:
(src, dest, maxSize). -/
def mainImageDirs : List (String × String × Int) :=
  [("", "", kB50), ("about", "board", kB50)]

/-- The page loop of `site.go` `addMain`. -/
def Site.mainPagesLoop (s : Site) (env : Env) :
    List (String × String × String) → St → Res
  | [], st => (st, none)
  | (srcDir, fileName, name) :: rest, st =>
    match s.addPage env name srcDir (fileName ++ ".html") PageData.nilData st with
    | (st1, some e) => (st1, some ("writing page: " ++ e))
    | (st1, none) => s.mainPagesLoop env rest st1

/-- The image-directory loop of `site.go` `addMain`. -/
def Site.imageDirsLoop (s : Site) (env : Env) :
    List (String × String × Int) → St → Res
  | [], st => (st, none)
  | (srcD, destD, maxSize) :: rest, st =>
    let src := pathJoin [resourcesDir, srcD, "images"]
    let destDir := pathJoin ["images", destD]
    match s.addImages env src destDir maxSize st with
    | (st1, some e) => (st1, some ("adding images from: " ++ e))
    | (st1, none) => s.imageDirsLoop env rest st1

/-- `site.go` `addMain`: render the fixed page list, then copy the root
and about-section image directories under the 50KB cap. -/
def Site.addMain (s : Site) (env : Env) (st : St) : Res :=
  match s.mainPagesLoop env mainPages st with
  | (st1, some e) => (st1, some e)
  | (st1, none) => s.imageDirsLoop env mainImageDirs st1

/-- `site.go` `cleanDest`: remove the whole destination tree, then
recreate the empty destination directory. -/
def Site.cleanDest (s : Site) (st : St) : Res :=
  match removeAllEff s.dest st with
  | (st1, some e) => (st1, some ("removing old version of site: " ++ e))
  | (st1, none) =>
    match mkdirAllEff s.dest st1 with
    | (st2, some e) => (st2, some ("creating new site directory: " ++ e))
    | (st2, none) => (st2, none)

/-- `internal/main.go` `writeFiles`: construct the `Site`, clean the
destination, render the main pages, render the event pages. -/
def writeFiles (env : Env) (dest : String) (oneResource : Bool) (st : St) : Res :=
  let s : Site :=
    { dest := dest
      Name := "Enl!ghten"
      Description := "Kitsap Community Forum"
      OneResource := oneResource }
  match s.cleanDest st with
  | (st1, some e) => (st1, some ("cleaning destination directory: " ++ e))
  | (st1, none) =>
    match s.addMain env st1 with
    | (st2, some e) => (st2, some ("main site pages: " ++ e))
    | (st2, none) =>
      match s.addEvents env st2 with
      | (st3, some e) => (st3, some ("event pages: " ++ e))
      | (st3, none) => (st3, none)

/-- Restriction of the written-file state to the subtree rooted at
`root` (the byte content of the generated site). -/
def restrictTo (root : String) (st : St) : St :=
  st.filter (fun e => underPath root e.1)

/-- The contribution of one event-folder file to the `Events` buffer:
the trimmed rendering of its `event` sub-template for an `.html` file,
nothing for any other file (specification helper for the processing
order of an event folder). -/
def eventFileRendered (env : Env) (root : String) (ff : DirEntry) : String :=
  if pathExt ff.name = ".html" then
    match env.readFile (pathJoin [root, ff.name]) with
    | some data =>
      match env.execTemplate "event" data with
      | some r => goTrim r
      | none => ""
    | none => ""
  else ""

/-- The rendered `event` sub-template outputs of the `.html` files of a
listing, concatenated in listing order. -/
def eventsRendered (env : Env) (root : String) : List DirEntry → String
  | [] => ""
  | ff :: rest => eventFileRendered env root ff ++ eventsRendered env root rest

/-- What `addPastEvents` guarantees for the group built from one year
entry: the group is labelled with the folder name and its `Events`
buffer is the concatenation of the rendered events of the folder's
files in the reverse of the directory-listing order. -/
def yearSpec (env : Env) (dir : String) (y : DirEntry) (eg : EventGroup) : Prop :=
  eg.Year = y.name ∧
  ∀ fl, env.readDir (pathJoin [dir, y.name]) = some fl →
    eg.Events = eventsRendered env (pathJoin [dir, y.name]) fl.reverse

/-- A concrete handler used by middleware witnesses: echo the request
path as the body. -/
def hEcho : Handler :=
  fun r => { headers := [], body := strBytes r.path }

/-- A site value as constructed by `writeFiles` with destination
"site". -/
def site0 : Site :=
  { dest := "site"
    Name := "Enl!ghten"
    Description := "Kitsap Community Forum"
    OneResource := false }

/-- An image of 50001 bytes, one over the 50KB cap. -/
def bigImg : Bytes := List.replicate 50001 7

/-- A document of 10000001 bytes, one over the (claimed) 10MB cap. -/
def bigDoc : Bytes := List.replicate 10000001 0

/-- A concrete source filesystem with an oversized image, a small
image, and an oversized document. -/
def envFiles : Env :=
  { readFile := fun p =>
      if p = "resources/images/big.jpg" then some bigImg
      else if p = "resources/images/ok.jpg" then some [1, 2, 3]
      else if p = "resources/events/past/2024/slides.pdf" then some bigDoc
      else none
    readDir := fun _ => none
    execTemplate := fun _ _ => none
    renderMain := fun _ _ _ => none }

/-- A concrete source filesystem with two past-event year folders (2023
before 2024 in listing order), each holding event `.html` files, and
always-succeeding template rendering. -/
def envPast : Env :=
  { readFile := fun _ => some [104]
    readDir := fun p =>
      if p = "resources/events/past" then
        some [{ name := "2023", isDir := true }, { name := "2024", isDir := true }]
      else if p = "resources/events/past/2023" then
        some [{ name := "a.html", isDir := false }, { name := "b.html", isDir := false }]
      else if p = "resources/events/past/2024" then
        some [{ name := "c.html", isDir := false }]
      else none
    execTemplate := fun tn _ => if tn = "event" then some " E " else some "R"
    renderMain := fun _ _ _ => some " page " }

/-- A state-passing step is append-only and state-oblivious: on any
prior state it appends exactly the writes it makes from the empty
state, and succeeds or fails the same way.  Every step of the
generation pipeline after `cleanDest` has this shape because no step
reads the destination. -/
def FrameS (f : St → Res) : Prop :=
  ∀ st, f st = (st ++ (f []).1, (f []).2)

/-- `FrameS` for steps that also return a value (event groups): the
value, the appended writes and the error are all independent of the
prior state. -/
def FrameT {α : Type} (f : St → α × Res) : Prop :=
  ∀ st, f st = ((f []).1, st ++ (f []).2.1, (f []).2.2)

/-! ## Claims about the HTTP middleware -/

/-- Claim C5: through `withProxy h "/" "/home.html"`, a request to "/"
produces the same response as a request to "/home.html", and a request
to any other path produces exactly the wrapped handler's response for
that path. -/
theorem withProxy_root_rewrite (h : Handler) (enc : String) (p : String)
    (hp : p ≠ "/") :
    withProxy h "/" "/home.html" { path := "/", acceptEncoding := enc } =
      h { path := "/home.html", acceptEncoding := enc } ∧
    withProxy h "/" "/home.html" { path := p, acceptEncoding := enc } =
      h { path := p, acceptEncoding := enc } := by
  constructor
  · simp [withProxy]
  · simp [withProxy, hp]

/-- Witness for C5: the echo handler, the root path and the unaffected
path "/about.html". -/
theorem withProxy_root_rewrite_witness :
    withProxy hEcho "/" "/home.html" { path := "/", acceptEncoding := "" } =
      hEcho { path := "/home.html", acceptEncoding := "" } ∧
    withProxy hEcho "/" "/home.html" { path := "/about.html", acceptEncoding := "" } =
      hEcho { path := "/about.html", acceptEncoding := "" } :=
  withProxy_root_rewrite hEcho "" "/about.html" (by decide)

/-- Claim C4: when the Accept-Encoding header contains "gzip", the
response carries `Content-Encoding: gzip` and its body is the gzip
compression of the wrapped handler's body, so gzip-decoding it recovers
the uncompressed body; when the header does not contain "gzip", the
response is byte-identical to the wrapped handler's response and no
Content-Encoding header is set. -/
theorem withContentEncoding_spec (gz gunzip : Bytes → Bytes)
    (hinv : ∀ b, gunzip (gz b) = b) (h : Handler) (r : Request) :
    (strContains r.acceptEncoding "gzip" = true →
      ("Content-Encoding", "gzip") ∈ (withContentEncoding gz h r).headers ∧
      (withContentEncoding gz h r).body = gz (h r).body ∧
      gunzip (withContentEncoding gz h r).body = (h r).body) ∧
    (strContains r.acceptEncoding "gzip" = false →
      withContentEncoding gz h r = h r ∧
      ((∀ v, ("Content-Encoding", v) ∉ (h r).headers) →
        ∀ v, ("Content-Encoding", v) ∉ (withContentEncoding gz h r).headers)) := by
  constructor
  · intro hc
    simp [withContentEncoding, hc, hinv]
  · intro hc
    constructor
    · simp [withContentEncoding, hc]
    · intro hnone v
      simp [withContentEncoding, hc]
      exact hnone v

/-- Witness for C4: reversal as an invertible stand-in for the gzip
codec, the echo handler, a gzip-accepting request and an
UNKNOWN-encoding request. -/
theorem withContentEncoding_spec_witness :
    (("Content-Encoding", "gzip") ∈
        (withContentEncoding List.reverse hEcho
          { path := "/a", acceptEncoding := "gzip, deflate, br" }).headers ∧
      (withContentEncoding List.reverse hEcho
          { path := "/a", acceptEncoding := "gzip, deflate, br" }).body =
        List.reverse (hEcho { path := "/a", acceptEncoding := "gzip, deflate, br" }).body ∧
      List.reverse (withContentEncoding List.reverse hEcho
          { path := "/a", acceptEncoding := "gzip, deflate, br" }).body =
        (hEcho { path := "/a", acceptEncoding := "gzip, deflate, br" }).body) ∧
    withContentEncoding List.reverse hEcho { path := "/a", acceptEncoding := "UNKNOWN" } =
      hEcho { path := "/a", acceptEncoding := "UNKNOWN" } := by
  have h1 := (withContentEncoding_spec List.reverse List.reverse
      (fun b => List.reverse_reverse b) hEcho
      { path := "/a", acceptEncoding := "gzip, deflate, br" }).1 (by decide)
  have h2 := (withContentEncoding_spec List.reverse List.reverse
      (fun b => List.reverse_reverse b) hEcho
      { path := "/a", acceptEncoding := "UNKNOWN" }).2 (by decide)
  exact ⟨h1, h2.1⟩

/-- Claim C6: responses carry a Cache-Control header with max-age 86400
seconds (one day) for `.html` and extensionless paths and 31536000
seconds (one year) for every other extension, and when the wrapped
handler sets no Cache-Control header the middleware's header appears
exactly once in the response. -/
theorem withBasicCacheControl_spec (h : Handler) (r : Request) :
    ((pathExt r.path = ".html" ∨ pathExt r.path = "") →
      withBasicCacheControl h r =
        { headers := ("Cache-Control", "max-age=86400") :: (h r).headers
          body := (h r).body }) ∧
    ((pathExt r.path ≠ ".html" ∧ pathExt r.path ≠ "") →
      withBasicCacheControl h r =
        { headers := ("Cache-Control", "max-age=31536000") :: (h r).headers
          body := (h r).body }) ∧
    ((∀ v, ("Cache-Control", v) ∉ (h r).headers) →
      ((withBasicCacheControl h r).headers.filter
          (fun kv => kv.1 = "Cache-Control")).length = 1) := by
  have hday : ("max-age=" ++ toString (24 * 60 * 60 : Nat)) = "max-age=86400" := by decide
  have hyear : ("max-age=" ++ toString (365 * (24 * 60 * 60) : Nat)) = "max-age=31536000" := by
    decide
  refine ⟨?_, ?_, ?_⟩
  · intro hx
    rcases hx with hx | hx <;>
      simp [withBasicCacheControl, withCacheControl, hx, hday]
  · intro ⟨h1, h2⟩
    simp [withBasicCacheControl, withCacheControl, h1, h2, hyear]
  · intro hnone
    have htail : ((h r).headers.filter (fun kv => kv.1 = "Cache-Control")) = [] := by
      rw [List.filter_eq_nil_iff]
      intro kv hkv hq
      obtain ⟨k, v⟩ := kv
      simp at hq
      subst hq
      exact hnone v hkv
    by_cases hx : pathExt r.path = ".html" ∨ pathExt r.path = ""
    · rcases hx with hx | hx <;>
        simp [withBasicCacheControl, withCacheControl, hx, htail]
    · push_neg at hx
      simp [withBasicCacheControl, withCacheControl, hx.1, hx.2, htail]

/-- Witness for C6: the echo handler (which sets no headers), the
1-day path "/home.html" and the 1-year path "/logo.png". -/
theorem withBasicCacheControl_spec_witness :
    withBasicCacheControl hEcho { path := "/home.html", acceptEncoding := "" } =
      { headers := [("Cache-Control", "max-age=86400")]
        body := (hEcho { path := "/home.html", acceptEncoding := "" }).body } ∧
    withBasicCacheControl hEcho { path := "/logo.png", acceptEncoding := "" } =
      { headers := [("Cache-Control", "max-age=31536000")]
        body := (hEcho { path := "/logo.png", acceptEncoding := "" }).body } ∧
    ((withBasicCacheControl hEcho
        { path := "/logo.png", acceptEncoding := "" }).headers.filter
        (fun kv => kv.1 = "Cache-Control")).length = 1 := by
  have h1 := (withBasicCacheControl_spec hEcho
      { path := "/home.html", acceptEncoding := "" }).1 (Or.inl (by decide))
  have h2 := withBasicCacheControl_spec hEcho { path := "/logo.png", acceptEncoding := "" }
  exact ⟨h1, h2.2.1 ⟨by decide, by decide⟩, h2.2.2 (by intro v hv; simp [hEcho] at hv)⟩

/-! ## Claim about the server configuration -/

/-- Claim C9: with no -port argument and no environment variable the
parsed port is "8000"; the environment variable named by uppercasing
the flag name and replacing hyphens with underscores (PORT) overrides
both the default and any command-line value. -/
theorem parseArgsAndEnv_spec (envv : String → Option String) (nm : String) :
    replaceDash (goUpper "port") = "PORT" ∧
    (envv "PORT" = none → parseArgsAndEnv envv [nm] = some { port := "8000" }) ∧
    (∀ v args port0, envv "PORT" = some v → fsParse args "8000" = some port0 →
      parseArgsAndEnv envv (nm :: args) = some { port := v }) := by
  have hname : replaceDash (goUpper "port") = "PORT" := by decide
  refine ⟨hname, ?_, ?_⟩
  · intro hnone
    simp [parseArgsAndEnv, fsParse, parseEnvVars, hname, hnone]
  · intro v args port0 hv hp
    simp [parseArgsAndEnv, hp, parseEnvVars, hname, hv]

/-- Witness for C9: default with an empty environment; a set PORT
variable beating the command-line value "-port=999". -/
theorem parseArgsAndEnv_spec_witness :
    parseArgsAndEnv (fun _ => none) ["srv"] = some { port := "8000" } ∧
    parseArgsAndEnv (fun n => if n = "PORT" then some "11" else none)
        ["srv", "-port=999"] = some { port := "11" } := by
  refine ⟨(parseArgsAndEnv_spec (fun _ => none) "srv").2.1 rfl, ?_⟩
  exact (parseArgsAndEnv_spec (fun n => if n = "PORT" then some "11" else none)
    "srv").2.2 "11" ["-port=999"] "999" (by decide) (by decide)

/-! ## Claims about the resource copy policy -/

/-- Helper: `addImage` on a readable non-directory whose length exceeds
a positive cap returns the size-policy error and leaves the state
unchanged. -/
theorem addImage_eq_error (s : Site) (env : Env) (f : DirEntry)
    (src destDir : String) (maxSize : Int) (b : Bytes) (st : St)
    (hdir : f.isDir = false)
    (hread : env.readFile (pathJoin [src, f.name]) = some b)
    (hbig : (b.length : Int) > maxSize) (hpos : 0 < maxSize) :
    s.addImage env f src destDir maxSize st =
      (st, some ("image " ++ f.name ++ " larger than " ++ toString maxSize ++ " bytes")) := by
  have hcond : ((b.length : Int) > maxSize ∧ maxSize > 0) := ⟨hbig, hpos⟩
  simp [Site.addImage, hdir, hread, hcond]

/-- Helper: `addImage` on a readable non-directory for which the size
guard does not fire appends exactly the verbatim copy. -/
theorem addImage_eq_write (s : Site) (env : Env) (f : DirEntry)
    (src destDir : String) (maxSize : Int) (b : Bytes) (st : St)
    (hdir : f.isDir = false)
    (hread : env.readFile (pathJoin [src, f.name]) = some b)
    (hcond : ¬((b.length : Int) > maxSize ∧ maxSize > 0)) :
    s.addImage env f src destDir maxSize st =
      (st ++ [(pathJoin [pathJoin [s.dest, destDir], f.name], b)], none) := by
  simp [Site.addImage, hdir, hread, hcond, mkdirAllEff, writeFileEff]

/-- Helper: `addResource` on a readable document appends exactly the
verbatim copy, with no size condition. -/
theorem addResource_eq_write (s : Site) (env : Env)
    (year name dir : String) (b : Bytes) (st : St)
    (hread : env.readFile (pathJoin [dir, name]) = some b) :
    s.addResource env year name dir st =
      (st ++ [(pathJoin [pathJoin [s.dest, pathJoin ["resources", "events", year]], name], b)],
       none) := by
  simp [Site.addResource, hread, mkdirAllEff, writeFileEff]

/-- Claim C1: with a positive size threshold, an image file longer than
the threshold makes `addImage` fail with the size-policy error and

nothing is written; a file of at most the threshold is copied verbatim
to the destination. -/
theorem addImage_size_policy (s : Site) (env : Env) (f : DirEntry)
    (src destDir : String) (maxSize : Int) (b : Bytes) (st : St)
    (hdir : f.isDir = false)
    (hread : env.readFile (pathJoin [src, f.name]) = some b)
    (hpos : 0 < maxSize) :
    ((b.length : Int) > maxSize →
      s.addImage env f src destDir maxSize st =
        (st, some ("image " ++ f.name ++ " larger than " ++ toString maxSize ++ " bytes"))) ∧
    ((b.length : Int) ≤ maxSize →
      s.addImage env f src destDir maxSize st =
        (st ++ [(pathJoin [pathJoin [s.dest, destDir], f.name], b)], none)) := by
  constructor
  · intro hbig
    exact addImage_eq_error s env f src destDir maxSize b st hdir hread hbig hpos
  · intro hsmall
    exact addImage_eq_write s env f src destDir maxSize b st hdir hread
      (fun hc => absurd hc.1 (not_lt.mpr hsmall))

/-- Witness for C1: the 50000-byte threshold, a 50001-byte image that
is rejected without being written, and a 3-byte image that is copied
verbatim. -/
theorem addImage_size_policy_witness :
    site0.addImage envFiles { name := "big.jpg", isDir := false }
        "resources/images" "images" 50000 [] =
      ([], some ("image " ++ "big.jpg" ++ " larger than " ++ toString (50000 : Int) ++ " bytes")) ∧
    site0.addImage envFiles { name := "ok.jpg", isDir := false }
        "resources/images" "images" 50000 [] =
      ([("site/images/ok.jpg", [1, 2, 3])], none) := by
  have h1 := addImage_size_policy site0 envFiles { name := "big.jpg", isDir := false }
    "resources/images" "images" 50000 bigImg [] rfl rfl (by norm_num)
  have h2 := addImage_size_policy site0 envFiles { name := "ok.jpg", isDir := false }
    "resources/images" "images" 50000 [1, 2, 3] [] rfl rfl (by norm_num)
  exact ⟨h1.1 (by norm_num [bigImg]), h2.2 (by norm_num)⟩

/-- Claim C10: with a zero or negative `maxSize`, the size check of
`addImage` is disabled and the file is copied verbatim regardless of
its length. -/
theorem addImage_nonpositive_cap (s : Site) (env : Env) (f : DirEntry)
    (src destDir : String) (maxSize : Int) (b : Bytes) (st : St)
    (hdir : f.isDir = false)
    (hread : env.readFile (pathJoin [src, f.name]) = some b)
    (hnp : maxSize ≤ 0) :
    s.addImage env f src destDir maxSize st =
      (st ++ [(pathJoin [pathJoin [s.dest, destDir], f.name], b)], none) :=
  addImage_eq_write s env f src destDir maxSize b st hdir hread
    (fun hc => absurd hc.2 (by omega))

/-- Witness for C10: a 50001-byte image copied under `maxSize = 0`. -/
theorem addImage_nonpositive_cap_witness :
    site0.addImage envFiles { name := "big.jpg", isDir := false }
        "resources/images" "images" 0 [] =
      ([("site/images/big.jpg", bigImg)], none) :=
  addImage_nonpositive_cap site0 envFiles { name := "big.jpg", isDir := false }
    "resources/images" "images" 0 bigImg [] rfl rfl (by norm_num)

/-- Counterexample for C2: a 10000001-byte document (over the claimed
10MB cap) is copied successfully by `addResource`; generation does not
fail. -/
theorem addResource_no_size_policy :
    (bigDoc.length : Int) > mB10 ∧
    site0.addResource envFiles "2024" "slides.pdf" "resources/events/past/2024" [] =
      ([("site/resources/events/2024/slides.pdf", bigDoc)], none) := by
  constructor
  · norm_num [bigDoc, mB10, megaByte, kiloByte]
  · rfl

/-- Claim C2 (amended): a document resource file in an event folder is
copied verbatim to the destination resources subtree with no
maximum-size policy; the 10MB constant exists but is never applied, so
oversized documents do not cause generation to fail. -/
theorem addResource_copies_verbatim (s : Site) (env : Env)
    (year name dir : String) (b : Bytes) (st : St)
    (hread : env.readFile (pathJoin [dir, name]) = some b) :
    s.addResource env year name dir st =
      (st ++ [(pathJoin [pathJoin [s.dest, pathJoin ["resources", "events", year]], name], b)],
       none) :=
  addResource_eq_write s env year name dir b st hread

/-- Witness for C2 (amended): the oversized document is copied
verbatim. -/
theorem addResource_copies_verbatim_witness :
    site0.addResource envFiles "2024" "slides.pdf" "resources/events/past/2024" [] =
      ([("site/resources/events/2024/slides.pdf", bigDoc)], none) :=
  addResource_copies_verbatim site0 envFiles "2024" "slides.pdf"
    "resources/events/past/2024" bigDoc [] rfl

/-- Claim C7: `addEventFile` dispatches on the file extension against
an explicit allow-list: `.html` renders the event and resources
sub-templates into the group's buffers, `.jpg` copies into the images
subtree under the 50KB cap, the five document extensions copy into the
resources subtree, and every other extension is an
unsupported-file-type error. -/
theorem addEventFile_dispatch (s : Site) (env : Env) (eg : EventGroup)
    (dir year : String) (ff : DirEntry) (st : St) :
    (pathExt ff.name ≠ ".html" → pathExt ff.name ≠ ".jpg" →
     pathExt ff.name ≠ ".docx" → pathExt ff.name ≠ ".pdf" →
     pathExt ff.name ≠ ".ppt" → pathExt ff.name ≠ ".pptx" → pathExt ff.name ≠ ".xlsx" →
      s.addEventFile env eg dir year ff st =
        (eg, st, some ("unsupported file type: " ++ pathExt ff.name ++ " (" ++ ff.name ++ ")"))) ∧
    (pathExt ff.name = ".html" →
      ∀ data r1 r2, env.readFile (pathJoin [dir, ff.name]) = some data →
        env.execTemplate "event" data = some r1 →
        env.execTemplate "resources" data = some r2 →
        s.addEventFile env eg dir year ff st =
          ({ Year := eg.Year, Events := eg.Events ++ goTrim r1,
             Resources := eg.Resources ++ goTrim r2 }, st, none)) ∧
    (pathExt ff.name = ".jpg" → ff.isDir = false →
      ∀ b, env.readFile (pathJoin [dir, ff.name]) = some b →
        (((b.length : Int) ≤ kB50 →
          s.addEventFile env eg dir year ff st =
            (eg, st ++ [(pathJoin [pathJoin [s.dest, pathJoin ["images", "events", year]],
              ff.name], b)], none)) ∧
         ((b.length : Int) > kB50 →
          s.addEventFile env eg dir year ff st =
            (eg, st, some ("adding resource: " ++
              ("image " ++ ff.name ++ " larger than " ++ toString kB50 ++ " bytes")))))) ∧
    ((pathExt ff.name = ".docx" ∨ pathExt ff.name = ".pdf" ∨ pathExt ff.name = ".ppt" ∨
      pathExt ff.name = ".pptx" ∨ pathExt ff.name = ".xlsx") →
      ∀ b, env.readFile (pathJoin [dir, ff.name]) = some b →
        s.addEventFile env eg dir year ff st =
          (eg, st ++ [(pathJoin [pathJoin [s.dest, pathJoin ["resources", "events", year]],
            ff.name], b)], none)) := by
  refine ⟨?_, ?_, ?_, ?_⟩
  · intro h1 h2 h3 h4 h5 h6 h7
    simp [Site.addEventFile, h1, h2, h3, h4, h5, h6, h7]
  · intro hext data r1 r2 hread he hr
    simp [Site.addEventFile, hext, Site.addEvent, hread, he, hr]
  · intro hext hdir b hread
    constructor
    · intro hle
      have hw := addImage_eq_write s env ff dir (pathJoin ["images", "events", year])
        kB50 b st hdir hread (fun hc => absurd hc.1 (not_lt.mpr hle))
      have hj : pathExt ff.name ≠ ".html" := by rw [hext]; decide
      simp [Site.addEventFile, hext, hj, hw]
    · intro hgt
      have hw := addImage_eq_error s env ff dir (pathJoin ["images", "events", year])
        kB50 b st hdir hread hgt (by norm_num [kB50, kiloByte])
      have hj : pathExt ff.name ≠ ".html" := by rw [hext]; decide
      simp [Site.addEventFile, hext, hj, hw]
  · intro hext b hread
    have hw := addResource_eq_write s env year ff.name dir b st hread
    rcases hext with hx | hx | hx | hx | hx <;>
      simp [Site.addEventFile, hx, hw]

/-- Witness for C7: an unsupported `.txt` file fails closed; a `.pdf`
document is copied into the resources subtree. -/
theorem addEventFile_dispatch_witness :
    site0.addEventFile envFiles { Year := "2024", Events := "", Resources := "" }
        "resources/events/past/2024" "2024" { name := "notes.txt", isDir := false } [] =
      ({ Year := "2024", Events := "", Resources := "" }, [],
        some ("unsupported file type: " ++ pathExt "notes.txt" ++ " (" ++ "notes.txt" ++ ")")) ∧
    site0.addEventFile envFiles { Year := "2024", Events := "", Resources := "" }
        "resources/events/past/2024" "2024" { name := "slides.pdf", isDir := false } [] =
      ({ Year := "2024", Events := "", Resources := "" },
        [("site/resources/events/2024/slides.pdf", bigDoc)], none) := by
  have h1 := (addEventFile_dispatch site0 envFiles
    { Year := "2024", Events := "", Resources := "" } "resources/events/past/2024" "2024"
    { name := "notes.txt", isDir := false } []).1
  have h2 := (addEventFile_dispatch site0 envFiles
    { Year := "2024", Events := "", Resources := "" } "resources/events/past/2024" "2024"
    { name := "slides.pdf", isDir := false } []).2.2.2
  exact ⟨h1 (by decide) (by decide) (by decide) (by decide) (by decide) (by decide) (by decide),
    h2 (Or.inr (Or.inl (by decide))) bigDoc rfl⟩

/-! ## Claim C3: processing order of the past events -/

/-- Helper: a successful `addEventFile` keeps the year label and
appends the file's rendered contribution to the `Events` buffer. -/
theorem addEventFile_ok_events (s : Site) (env : Env) (eg : EventGroup)
    (dir year : String) (ff : DirEntry) (st : St) (eg1 : EventGroup) (st1 : St)
    (h : s.addEventFile env eg dir year ff st = (eg1, st1, none)) :
    eg1.Year = eg.Year ∧ eg1.Events = eg.Events ++ eventFileRendered env dir ff := by
  unfold Site.addEventFile at h
  by_cases hh : pathExt ff.name = ".html"
  · rw [if_pos hh] at h
    unfold Site.addEvent at h
    simp only [] at h
    cases hr : env.readFile (pathJoin [dir, ff.name]) with
    | none => rw [hr] at h; simp at h
    | some data =>
      rw [hr] at h
      simp only [] at h
      cases he : env.execTemplate "event" data with
      | none => rw [he] at h; simp at h
      | some r1 =>
        rw [he] at h
        cases hrs : env.execTemplate "resources" data with
        | none => rw [hrs] at h; simp at h
        | some r2 =>
          rw [hrs] at h
          simp at h
          rw [← h.1]
          simp [eventFileRendered, hh, hr, he]
  · rw [if_neg hh] at h
    by_cases hj : pathExt ff.name = ".jpg"
    · rw [if_pos hj] at h
      simp only [] at h
      cases hi : s.addImage env ff dir (pathJoin ["images", "events", year]) kB50 st with
      | mk st' e =>
        rw [hi] at h
        cases e with
        | none =>
          simp at h
          rw [← h.1]
          simp [eventFileRendered, hh]
        | some e => simp at h
    · rw [if_neg hj] at h
      by_cases hd : pathExt ff.name = ".docx" ∨ pathExt ff.name = ".pdf" ∨
          pathExt ff.name = ".ppt" ∨ pathExt ff.name = ".pptx" ∨ pathExt ff.name = ".xlsx"
      · rw [if_pos hd] at h
        cases hi : s.addResource env year ff.name dir st with
        | mk st' e =>
          rw [hi] at h
          cases e with
          | none =>
            simp at h
            rw [← h.1]
            simp [eventFileRendered, hh]
          | some e => simp at h
      · rw [if_neg hd] at h
        simp at h

/-- Helper: a successful run of the event-file loop keeps the year
label and appends the rendered contributions of the files in loop
order. -/
theorem eventFilesLoop_ok_events (s : Site) (env : Env) (root year : String) :
    ∀ (l : List DirEntry) (eg : EventGroup) (st : St) (eg1 : EventGroup) (st1 : St),
      s.eventFilesLoop env root year l eg st = (eg1, st1, none) →
      eg1.Year = eg.Year ∧ eg1.Events = eg.Events ++ eventsRendered env root l := by
  intro l
  induction l with
  | nil =>
    intro eg st eg1 st1 h
    simp [Site.eventFilesLoop] at h
    simp [← h.1, eventsRendered]
  | cons ff rest ih =>
    intro eg st eg1 st1 h
    unfold Site.eventFilesLoop at h
    cases hstep : s.addEventFile env eg root year ff st with
    | mk eg' rest' =>
      cases rest' with
      | mk st' e =>
        rw [hstep] at h
        cases e with
        | none =>
          simp only [] at h
          have hfile := addEventFile_ok_events s env eg root year ff st eg' st' hstep
          have hrest := ih eg' st' eg1 st1 h
          refine ⟨hrest.1.trans hfile.1, ?_⟩
          rw [hrest.2, hfile.2, eventsRendered]
          simp [String.append_assoc]
        | some e => simp at h

/-- Helper: a successful `createEventGroup` labels the group with the
folder name and renders the folder's files in reverse listing order. -/
theorem createEventGroup_ok_spec (s : Site) (env : Env) (dir : String)
    (f : DirEntry) (st : St) (eg : EventGroup) (st1 : St)
    (h : s.createEventGroup env dir f st = (eg, st1, none)) :
    yearSpec env dir f eg := by
  unfold Site.createEventGroup at h
  by_cases hd : f.isDir
  · simp only [hd, Bool.not_true, Bool.false_eq_true, if_false] at h
    cases hr : env.readDir (pathJoin [dir, f.name]) with
    | none => rw [hr] at h; simp at h
    | some files =>
      rw [hr] at h
      have hl := eventFilesLoop_ok_events s env (pathJoin [dir, f.name]) f.name
        files.reverse { Year := f.name, Events := "", Resources := "" } st eg st1 h
      constructor
      · rw [hl.1]
      · intro fl hfl
        rw [hr] at hfl
        cases hfl
        rw [hl.2]
        simp
  · simp [hd] at h

/-- Helper: a successful run of the year loop appends one group per
year entry, each satisfying `yearSpec`. -/
theorem pastYearsLoop_ok_spec (s : Site) (env : Env) (dir : String) :
    ∀ (l : List DirEntry) (acc : List EventGroup) (st : St)
      (yrs : List EventGroup) (st1 : St),
      s.pastYearsLoop env dir l acc st = (yrs, st1, none) →
      ∃ ng, yrs = acc ++ ng ∧ List.Forall₂ (yearSpec env dir) l ng := by
  intro l
  induction l with
  | nil =>
    intro acc st yrs st1 h
    simp [Site.pastYearsLoop] at h
    exact ⟨[], by simp [← h.1], List.Forall₂.nil⟩
  | cons y rest ih =>
    intro acc st yrs st1 h
    unfold Site.pastYearsLoop at h
    cases hstep : s.createEventGroup env dir y st with
    | mk yr rest' =>
      cases rest' with
      | mk st' e =>
        rw [hstep] at h
        cases e with
        | none =>
          simp only [] at h
          obtain ⟨ng, hng, hfa⟩ := ih (acc ++ [yr]) st' yrs st1 h
          refine ⟨yr :: ng, by simp [hng], List.Forall₂.cons ?_ hfa⟩
          exact createEventGroup_ok_spec s env dir y st yr st' hstep
        | some e => simp at h

/-- Helper: a successful `addPage` appends exactly the rendered,
trimmed page to the destination. -/
theorem addPage_ok (s : Site) (env : Env) (pageName srcDir srcName : String)
    (data : PageData) (st st1 : St)
    (h : s.addPage env pageName srcDir srcName data st = (st1, none)) :
    ∃ r, env.renderMain (pathJoin [resourcesDir, srcDir, srcName]) pageName data = some r ∧
      st1 = st ++ [(pathJoin [s.dest, srcName], strBytes (goTrim r))] := by
  unfold Site.addPage Site.addFile mkdirAllEff writeFileEff at h
  simp only [] at h
  cases hr : env.renderMain (pathJoin [resourcesDir, srcDir, srcName]) pageName data with
  | none => rw [hr] at h; simp at h
  | some r =>
    rw [hr] at h
    simp at h
    exact ⟨r, rfl, h.symm⟩

/-- Helper: groups satisfying `yearSpec` pointwise carry exactly the
entry names as year labels. -/
theorem forall2_yearSpec_map (env : Env) (dir : String) :
    ∀ {l : List DirEntry} {ng : List EventGroup},
      List.Forall₂ (yearSpec env dir) l ng →
      ng.map (fun eg => eg.Year) = l.map (fun y => y.name) := by
  intro l ng h
  induction h with
  | nil => rfl
  | cons hy _ ih => simp [ih, hy.1]

/-- Claim C3: in a successful `addPastEvents` run, the year groups
passed to the past-events pages are the year folders in the reverse of
the directory-listing order (newest first), and each group's events are
the folder's files rendered in the reverse of its listing order. -/
theorem addPastEvents_order (s : Site) (env : Env) (st st1 : St)
    (ys : List DirEntry)
    (hdir : env.readDir (pathJoin [resourcesDir, "events", "past"]) = some ys)
    (hok : s.addPastEvents env st = (st1, none)) :
    ∃ yrs,
      List.Forall₂ (yearSpec env (pathJoin [resourcesDir, "events", "past"])) ys.reverse yrs ∧
      yrs.map (fun eg => eg.Year) = (ys.map (fun y => y.name)).reverse ∧
      (∃ r, env.renderMain (pathJoin [resourcesDir, "events", "past-events.html"])
          "Past Events" (PageData.groups yrs) = some r ∧
        (pathJoin [s.dest, "past-events.html"], strBytes (goTrim r)) ∈ st1) ∧
      (∃ r, env.renderMain (pathJoin [resourcesDir, "events", "videos-and-resources.html"])
          "Videos & Resources" (PageData.groups yrs) = some r ∧
        (pathJoin [s.dest, "videos-and-resources.html"], strBytes (goTrim r)) ∈ st1) := by
  unfold Site.addPastEvents at hok
  simp only [] at hok
  rw [hdir] at hok
  dsimp only at hok
  cases hloop : s.pastYearsLoop env (pathJoin [resourcesDir, "events", "past"])
      ys.reverse [] st with
  | mk yrs0 rest' =>
    cases rest' with
    | mk st' e =>
      rw [hloop] at hok
      cases e with
      | some e => simp at hok
      | none =>
        dsimp only at hok
        obtain ⟨ng, hng, hfa⟩ := pastYearsLoop_ok_spec s env
          (pathJoin [resourcesDir, "events", "past"]) ys.reverse [] st yrs0 st' hloop
        rw [List.nil_append] at hng
        subst hng
        cases hp1 : s.addPage env "Past Events" "events" "past-events.html"
            (PageData.groups yrs0) st' with
        | mk st2 e2 =>
          rw [hp1] at hok
          cases e2 with
          | some e2 => simp at hok
          | none =>
            dsimp only at hok
            cases hp2 : s.addPage env "Videos & Resources" "events"
                "videos-and-resources.html" (PageData.groups yrs0) st2 with
            | mk st3 e3 =>
              rw [hp2] at hok
              cases e3 with
              | some e3 => simp at hok
              | none =>
                dsimp only at hok
                have hst : st3 = st1 := congrArg Prod.fst hok
                obtain ⟨r1, hr1, hw1⟩ := addPage_ok s env "Past Events" "events"
                  "past-events.html" (PageData.groups yrs0) st' st2 hp1
                obtain ⟨r2, hr2, hw2⟩ := addPage_ok s env "Videos & Resources" "events"
                  "videos-and-resources.html" (PageData.groups yrs0) st2 st3 hp2
                have hyear : yrs0.map (fun eg => eg.Year) =
                    (ys.map (fun y => y.name)).reverse := by
                  rw [← List.map_reverse]
                  exact forall2_yearSpec_map env (pathJoin [resourcesDir, "events", "past"]) hfa
                refine ⟨yrs0, hfa, hyear, ⟨r1, hr1, ?_⟩, ⟨r2, hr2, ?_⟩⟩
                · rw [← hst, hw2, hw1]
                  simp
                · rw [← hst, hw2]
                  simp

/-- Witness for C3: two year folders listed as 2023 then 2024; the
groups come out newest-first and each year's files render in reverse
listing order. -/
theorem addPastEvents_order_witness :
    ∃ yrs,
      List.Forall₂ (yearSpec envPast (pathJoin [resourcesDir, "events", "past"]))
        [{ name := "2023", isDir := true },
         { name := "2024", isDir := true }].reverse yrs ∧
      yrs.map (fun eg => eg.Year) =
        ([{ name := "2023", isDir := true },
          { name := "2024", isDir := true }].map (fun y : DirEntry => y.name)).reverse ∧
      (∃ r, envPast.renderMain (pathJoin [resourcesDir, "events", "past-events.html"])
          "Past Events" (PageData.groups yrs) = some r ∧
        (pathJoin [site0.dest, "past-events.html"], strBytes (goTrim r)) ∈
          (site0.addPastEvents envPast []).1) ∧
      (∃ r, envPast.renderMain (pathJoin [resourcesDir, "events", "videos-and-resources.html"])
          "Videos & Resources" (PageData.groups yrs) = some r ∧
        (pathJoin [site0.dest, "videos-and-resources.html"], strBytes (goTrim r)) ∈
          (site0.addPastEvents envPast []).1) := by
  have h := addPastEvents_order site0 envPast [] (site0.addPastEvents envPast []).1
    [{ name := "2023", isDir := true }, { name := "2024", isDir := true }]
    rfl rfl
  exact h

/-! ## Claim C8: idempotent regeneration -/

/-- Helper: `addImage` is append-only and state-oblivious. -/
theorem frame_addImage (s : Site) (env : Env) (f : DirEntry) (src destDir : String)
    (maxSize : Int) : FrameS (fun st => s.addImage env f src destDir maxSize st) := by
  intro st
  by_cases h1 : f.isDir
  · simp [Site.addImage, h1]
  · by_cases h2 : ((((env.readFile (pathJoin [src, f.name])).getD []).length : Int) > maxSize ∧
        maxSize > 0)
    · simp [Site.addImage, h1, h2]
    · by_cases h3 : (env.readFile (pathJoin [src, f.name])).isNone = true
      · simp [Site.addImage, h1, h2, h3]
      · simp [Site.addImage, h1, h2, h3, mkdirAllEff, writeFileEff]

/-- Helper: the `addImages` loop is append-only and state-oblivious. -/
theorem frame_addImagesLoop (s : Site) (env : Env) (srcDir destDir : String)
    (maxSize : Int) :
    ∀ l, FrameS (fun st => s.addImagesLoop env srcDir destDir maxSize l st) := by
  intro l
  induction l with
  | nil => intro st; simp [Site.addImagesLoop]
  | cons f rest ih =>
    by_cases h1 : f.isDir
    · intro st; simp [Site.addImagesLoop, h1]
    · by_cases h2 : pathExt f.name = ".png" ∨ pathExt f.name = ".jpg"
      · intro st
        rcases hfe : s.addImage env f srcDir destDir maxSize [] with ⟨D, E⟩
        have hfst := frame_addImage s env f srcDir destDir maxSize st
        simp only [] at hfst
        rw [hfe] at hfst
        cases E with
        | some e => simp [Site.addImagesLoop, h1, h2, hfst, hfe]
        | none =>
          simp [Site.addImagesLoop, h1, h2, hfst, hfe, ih (st ++ D), ih D,
            List.append_assoc]
      · intro st; simp [Site.addImagesLoop, h1, h2]

/-- Helper: `addImages` is append-only and state-oblivious. -/
theorem frame_addImages (s : Site) (env : Env) (srcDir destDir : String)
    (maxSize : Int) : FrameS (fun st => s.addImages env srcDir destDir maxSize st) := by
  cases hr : env.readDir srcDir with
  | none => intro st; simp [Site.addImages, hr]
  | some entries =>
    intro st
    simp only [Site.addImages, hr, mkdirAllEff]
    exact frame_addImagesLoop s env srcDir destDir maxSize entries st

/-- Helper: `addFile` is append-only and state-oblivious. -/
theorem frame_addFile (s : Site) (env : Env) (srcDir name pageName : String)
    (data : PageData) : FrameS (fun st => s.addFile env srcDir name pageName data st) := by
  cases hr : env.renderMain (pathJoin [resourcesDir, srcDir, name]) pageName data with
  | none => intro st; simp [Site.addFile, mkdirAllEff, hr]
  | some got => intro st; simp [Site.addFile, mkdirAllEff, writeFileEff, hr]

/-- Helper: `addPage` is append-only and state-oblivious. -/
theorem frame_addPage (s : Site) (env : Env) (pageName srcDir srcName : String)
    (data : PageData) : FrameS (fun st => s.addPage env pageName srcDir srcName data st) := by
  intro st
  rcases hfe : s.addFile env srcDir srcName pageName data [] with ⟨D, E⟩
  have hfst := frame_addFile s env srcDir srcName pageName data st
  simp only [] at hfst
  rw [hfe] at hfst
  cases E with
  | some e => simp [Site.addPage, hfst, hfe]
  | none => simp [Site.addPage, hfst, hfe]

/-- Helper: `addResource` is append-only and state-oblivious. -/
theorem frame_addResource (s : Site) (env : Env) (year name dir : String) :
    FrameS (fun st => s.addResource env year name dir st) := by
  cases hr : env.readFile (pathJoin [dir, name]) with
  | none => intro st; simp [Site.addResource, hr]
  | some b => intro st; simp [Site.addResource, hr, mkdirAllEff, writeFileEff]

/-- Helper: `addEvent` leaves the state unchanged and its result does
not depend on the state. -/
theorem frame_addEvent (s : Site) (env : Env) (eg : EventGroup) (src : String) :
    FrameT (fun st => s.addEvent env eg src st) := by
  intro st
  cases hr : env.readFile src with
  | none => simp [Site.addEvent, hr]
  | some data =>
    cases he : env.execTemplate "event" data with
    | none => simp [Site.addEvent, hr, he]
    | some r1 =>
      cases hrs : env.execTemplate "resources" data with
      | none => simp [Site.addEvent, hr, he, hrs]
      | some r2 => simp [Site.addEvent, hr, he, hrs]

/-- Helper: `addEventFile` is append-only and state-oblivious. -/
theorem frame_addEventFile (s : Site) (env : Env) (eg : EventGroup)
    (dir year : String) (ff : DirEntry) :
    FrameT (fun st => s.addEventFile env eg dir year ff st) := by
  by_cases hh : pathExt ff.name = ".html"
  · intro st
    rcases hfe : s.addEvent env eg (pathJoin [dir, ff.name]) [] with ⟨eg1, D, E⟩
    have hfst := frame_addEvent s env eg (pathJoin [dir, ff.name]) st
    simp only [] at hfst
    rw [hfe] at hfst
    cases E with
    | some e => simp [Site.addEventFile, hh, hfst, hfe]
    | none => simp [Site.addEventFile, hh, hfst, hfe]
  · by_cases hj : pathExt ff.name = ".jpg"
    · intro st
      rcases hfe : s.addImage env ff dir (pathJoin ["images", "events", year]) kB50 []
        with ⟨D, E⟩
      have hfst := frame_addImage s env ff dir (pathJoin ["images", "events", year]) kB50 st
      simp only [] at hfst
      rw [hfe] at hfst
      cases E with
      | some e => simp [Site.addEventFile, hh, hj, hfst, hfe]
      | none => simp [Site.addEventFile, hh, hj, hfst, hfe]
    · by_cases hd : pathExt ff.name = ".docx" ∨ pathExt ff.name = ".pdf" ∨
          pathExt ff.name = ".ppt" ∨ pathExt ff.name = ".pptx" ∨ pathExt ff.name = ".xlsx"
      · intro st
        rcases hfe : s.addResource env year ff.name dir [] with ⟨D, E⟩
        have hfst := frame_addResource s env year ff.name dir st
        simp only [] at hfst
        rw [hfe] at hfst
        cases E with
        | some e => simp [Site.addEventFile, hh, hj, hd, hfst, hfe]
        | none => simp [Site.addEventFile, hh, hj, hd, hfst, hfe]
      · intro st
        simp [Site.addEventFile, hh, hj, hd]

/-- Helper: the event-file loop is append-only and state-oblivious. -/
theorem frame_eventFilesLoop (s : Site) (env : Env) (root year : String) :
    ∀ l eg, FrameT (fun st => s.eventFilesLoop env root year l eg st) := by
  intro l
  induction l with
  | nil => intro eg st; simp [Site.eventFilesLoop]
  | cons ff rest ih =>
    intro eg st
    rcases hfe : s.addEventFile env eg root year ff [] with ⟨eg1, D, E⟩
    have hfst := frame_addEventFile s env eg root year ff st
    simp only [] at hfst
    rw [hfe] at hfst
    cases E with
    | some e => simp [Site.eventFilesLoop, hfst, hfe]
    | none =>
      simp [Site.eventFilesLoop, hfst, hfe, ih eg1 (st ++ D), ih eg1 D, List.append_assoc]

/-- Helper: `createEventGroup` is append-only and state-oblivious. -/
theorem frame_createEventGroup (s : Site) (env : Env) (dir : String) (f : DirEntry) :
    FrameT (fun st => s.createEventGroup env dir f st) := by
  by_cases hd : f.isDir
  · cases hr : env.readDir (pathJoin [dir, f.name]) with
    | none => intro st; simp [Site.createEventGroup, hd, hr]
    | some files =>
      intro st
      simp only [Site.createEventGroup, hd, Bool.not_true, Bool.false_eq_true, if_false, hr]
      exact frame_eventFilesLoop s env (pathJoin [dir, f.name]) f.name files.reverse
        { Year := f.name, Events := "", Resources := "" } st
  · intro st; simp [Site.createEventGroup, hd]

/-- Helper: the past-years loop is append-only and state-oblivious. -/
theorem frame_pastYearsLoop (s : Site) (env : Env) (dir : String) :
    ∀ l acc, FrameT (fun st => s.pastYearsLoop env dir l acc st) := by
  intro l
  induction l with
  | nil => intro acc st; simp [Site.pastYearsLoop]
  | cons y rest ih =>
    intro acc st
    rcases hfe : s.createEventGroup env dir y [] with ⟨yr, D, E⟩
    have hfst := frame_createEventGroup s env dir y st
    simp only [] at hfst
    rw [hfe] at hfst
    cases E with
    | some e => simp [Site.pastYearsLoop, hfst, hfe]
    | none =>
      simp [Site.pastYearsLoop, hfst, hfe, ih (acc ++ [yr]) (st ++ D), ih (acc ++ [yr]) D,
        List.append_assoc]

/-- Helper: `addPastEvents` is append-only and state-oblivious. -/
theorem frame_addPastEvents (s : Site) (env : Env) :
    FrameS (fun st => s.addPastEvents env st) := by
  cases hr : env.readDir (pathJoin [resourcesDir, "events", "past"]) with
  | none => intro st; simp [Site.addPastEvents, hr]
  | some ys =>
    intro st
    rcases hfe : s.pastYearsLoop env (pathJoin [resourcesDir, "events", "past"])
        ys.reverse [] [] with ⟨yrs, D, E⟩
    have hfst := frame_pastYearsLoop s env (pathJoin [resourcesDir, "events", "past"])
      ys.reverse [] st
    simp only [] at hfst
    rw [hfe] at hfst
    cases E with
    | some e => simp [Site.addPastEvents, hr, hfst, hfe]
    | none =>
      rcases hfe1 : s.addPage env "Past Events" "events" "past-events.html"
          (PageData.groups yrs) [] with ⟨D1, E1⟩
      have ha := frame_addPage s env "Past Events" "events" "past-events.html"
        (PageData.groups yrs) (st ++ D)
      simp only [] at ha
      rw [hfe1] at ha
      have hb := frame_addPage s env "Past Events" "events" "past-events.html"
        (PageData.groups yrs) D
      simp only [] at hb
      rw [hfe1] at hb
      cases E1 with
      | some e => simp [Site.addPastEvents, hr, hfst, hfe, ha, hb, List.append_assoc]
      | none =>
        rcases hfe2 : s.addPage env "Videos & Resources" "events"
            "videos-and-resources.html" (PageData.groups yrs) [] with ⟨D2, E2⟩
        have hc1 := frame_addPage s env "Videos & Resources" "events"
          "videos-and-resources.html" (PageData.groups yrs) (st ++ D ++ D1)
        simp only [] at hc1
        rw [hfe2] at hc1
        have hc2 := frame_addPage s env "Videos & Resources" "events"
          "videos-and-resources.html" (PageData.groups yrs) (st ++ (D ++ D1))
        simp only [] at hc2
        rw [hfe2] at hc2
        have hc3 := frame_addPage s env "Videos & Resources" "events"
          "videos-and-resources.html" (PageData.groups yrs) (D ++ D1)
        simp only [] at hc3
        rw [hfe2] at hc3
        cases E2 with
        | some e =>
          simp [Site.addPastEvents, hr, hfst, hfe, ha, hb, hc1, hc2, hc3,
            List.append_assoc]
        | none =>
          simp [Site.addPastEvents, hr, hfst, hfe, ha, hb, hc1, hc2, hc3,
            List.append_assoc]

/-- Helper: `addFutureEvents` is append-only and state-oblivious. -/
theorem frame_addFutureEvents (s : Site) (env : Env) :
    FrameS (fun st => s.addFutureEvents env st) := by
  cases hr : env.readDir (pathJoin [resourcesDir, "events"]) with
  | none => intro st; simp [Site.addFutureEvents, hr]
  | some entries =>
    cases hfind : entries.find? (fun de => de.name = "future") with
    | none => intro st; simp [Site.addFutureEvents, hr, hfind]
    | some fut =>
      intro st
      rcases hfe : s.createEventGroup env (pathJoin [resourcesDir, "events"]) fut []
        with ⟨eg, D, E⟩
      have hfst := frame_createEventGroup s env (pathJoin [resourcesDir, "events"]) fut st
      simp only [] at hfst
      rw [hfe] at hfst
      cases E with
      | some e => simp [Site.addFutureEvents, hr, hfind, hfst, hfe]
      | none =>
        rcases hfe1 : s.addPage env "Upcoming Speakers" "events" "future-events.html"
            (PageData.group eg) [] with ⟨D1, E1⟩
        have ha := frame_addPage s env "Upcoming Speakers" "events" "future-events.html"
          (PageData.group eg) (st ++ D)
        simp only [] at ha
        rw [hfe1] at ha
        have hb := frame_addPage s env "Upcoming Speakers" "events" "future-events.html"
          (PageData.group eg) D
        simp only [] at hb
        rw [hfe1] at hb
        cases E1 with
        | some e => simp [Site.addFutureEvents, hr, hfind, hfst, hfe, ha, hb,
            List.append_assoc]
        | none => simp [Site.addFutureEvents, hr, hfind, hfst, hfe, ha, hb,
            List.append_assoc]

/-- Helper: `addEvents` is append-only and state-oblivious. -/
theorem frame_addEvents (s : Site) (env : Env) :
    FrameS (fun st => s.addEvents env st) := by
  intro st
  rcases hfe : s.addFutureEvents env [] with ⟨D, E⟩
  have hfst := frame_addFutureEvents s env st
  simp only [] at hfst
  rw [hfe] at hfst
  cases E with
  | some e => simp [Site.addEvents, hfst, hfe]
  | none =>
    rcases hfe1 : s.addPastEvents env [] with ⟨D1, E1⟩
    have ha := frame_addPastEvents s env (st ++ D)
    simp only [] at ha
    rw [hfe1] at ha
    have hb := frame_addPastEvents s env D
    simp only [] at hb
    rw [hfe1] at hb
    cases E1 with
    | some e => simp [Site.addEvents, hfst, hfe, ha, hb, List.append_assoc]
    | none => simp [Site.addEvents, hfst, hfe, ha, hb, List.append_assoc]

/-- Helper: the main-pages loop is append-only and state-oblivious. -/
theorem frame_mainPagesLoop (s : Site) (env : Env) :
    ∀ l, FrameS (fun st => s.mainPagesLoop env l st) := by
  intro l
  induction l with
  | nil => intro st; simp [Site.mainPagesLoop]
  | cons hd rest ih =>
    obtain ⟨srcDir, fileName, name⟩ := hd
    intro st
    rcases hfe : s.addPage env name srcDir (fileName ++ ".html") PageData.nilData []
      with ⟨D, E⟩
    have hfst := frame_addPage s env name srcDir (fileName ++ ".html") PageData.nilData st
    simp only [] at hfst
    rw [hfe] at hfst
    cases E with
    | some e => simp [Site.mainPagesLoop, hfst, hfe]
    | none => simp [Site.mainPagesLoop, hfst, hfe, ih (st ++ D), ih D, List.append_assoc]

/-- Helper: the image-directories loop is append-only and
state-oblivious. -/
theorem frame_imageDirsLoop (s : Site) (env : Env) :
    ∀ l, FrameS (fun st => s.imageDirsLoop env l st) := by
  intro l
  induction l with
  | nil => intro st; simp [Site.imageDirsLoop]
  | cons hd rest ih =>
    obtain ⟨srcD, destD, maxSize⟩ := hd
    intro st
    rcases hfe : s.addImages env (pathJoin [resourcesDir, srcD, "images"])
        (pathJoin ["images", destD]) maxSize [] with ⟨D, E⟩
    have hfst := frame_addImages s env (pathJoin [resourcesDir, srcD, "images"])
      (pathJoin ["images", destD]) maxSize st
    simp only [] at hfst
    rw [hfe] at hfst
    cases E with
    | some e => simp [Site.imageDirsLoop, hfst, hfe]
    | none => simp [Site.imageDirsLoop, hfst, hfe, ih (st ++ D), ih D, List.append_assoc]

/-- Helper: `addMain` is append-only and state-oblivious. -/
theorem frame_addMain (s : Site) (env : Env) :
    FrameS (fun st => s.addMain env st) := by
  intro st
  rcases hfe : s.mainPagesLoop env mainPages [] with ⟨D, E⟩
  have hfst := frame_mainPagesLoop s env mainPages st
  simp only [] at hfst
  rw [hfe] at hfst
  cases E with
  | some e => simp [Site.addMain, hfst, hfe]
  | none =>
    rcases hfe1 : s.imageDirsLoop env mainImageDirs [] with ⟨D1, E1⟩
    have ha := frame_imageDirsLoop s env mainImageDirs (st ++ D)
    simp only [] at ha
    rw [hfe1] at ha
    have hb := frame_imageDirsLoop s env mainImageDirs D
    simp only [] at hb
    rw [hfe1] at hb
    cases E1 with
    | some e => simp [Site.addMain, hfst, hfe, ha, hb, List.append_assoc]
    | none => simp [Site.addMain, hfst, hfe, ha, hb, List.append_assoc]

/-- Helper: `cleanDest` deletes exactly the destination subtree and
always succeeds. -/
theorem cleanDest_eq (s : Site) (st : St) :
    s.cleanDest st = (st.filter (fun e => !underPath s.dest e.1), none) := by
  simp [Site.cleanDest, removeAllEff, mkdirAllEff]

/-- Helper: nothing under `root` survives its own removal. -/
theorem filter_out_under (root : String) (st : St) :
    (st.filter (fun e => !underPath root e.1)).filter (fun e => underPath root e.1) = [] := by
  rw [List.filter_filter]
  simp

/-- Helper: a full `writeFiles` run wipes the destination subtree of
the prior state and appends writes that do not depend on it. -/
theorem writeFiles_frame (env : Env) (dest : String) (oneRes : Bool) (st : St) :
    writeFiles env dest oneRes st =
      ((st.filter (fun e => !underPath dest e.1)) ++ (writeFiles env dest oneRes []).1,
       (writeFiles env dest oneRes []).2) := by
  rcases hfe : (Site.addMain { dest := dest, Name := "Enl!ghten", Description := "Kitsap Community Forum", OneResource := oneRes } env []) with ⟨D, E⟩
  have hma := frame_addMain { dest := dest, Name := "Enl!ghten", Description := "Kitsap Community Forum", OneResource := oneRes } env
  have ha := hma (st.filter (fun e => !underPath dest e.1))
  simp only [] at ha
  rw [hfe] at ha
  cases E with
  | some e => simp [writeFiles, cleanDest_eq, ha, hfe]
  | none =>
    rcases hfe2 : (Site.addEvents { dest := dest, Name := "Enl!ghten", Description := "Kitsap Community Forum", OneResource := oneRes } env []) with ⟨D2, E2⟩
    have hme := frame_addEvents { dest := dest, Name := "Enl!ghten", Description := "Kitsap Community Forum", OneResource := oneRes } env
    have hc1 := hme (st.filter (fun e => !underPath dest e.1) ++ D)
    simp only [] at hc1
    rw [hfe2] at hc1
    have hc2 := hme D
    simp only [] at hc2
    rw [hfe2] at hc2
    cases E2 with
    | some e => simp [writeFiles, cleanDest_eq, ha, hfe, hc1, hc2, List.append_assoc]
    | none => simp [writeFiles, cleanDest_eq, ha, hfe, hc1, hc2, List.append_assoc]

/-- Claim C8: for any destination and any two prior destination
states, a full generation run produces the identical destination
subtree and the identical outcome; in particular running the generator
twice in a row leaves exactly the bytes of the first run. -/
theorem writeFiles_idempotent (env : Env) (dest : String) (oneRes : Bool)
    (st1 st2 : St) :
    restrictTo dest (writeFiles env dest oneRes st1).1 =
      restrictTo dest (writeFiles env dest oneRes st2).1 ∧
    (writeFiles env dest oneRes st1).2 = (writeFiles env dest oneRes st2).2 ∧
    restrictTo dest (writeFiles env dest oneRes (writeFiles env dest oneRes st1).1).1 =
      restrictTo dest (writeFiles env dest oneRes st1).1 := by
  have k1 := writeFiles_frame env dest oneRes st1
  have k2 := writeFiles_frame env dest oneRes st2
  have k3 := writeFiles_frame env dest oneRes (writeFiles env dest oneRes st1).1
  refine ⟨?_, ?_, ?_⟩
  · rw [k1, k2]
    simp [restrictTo, List.filter_append, filter_out_under]
  · rw [k1, k2]
  · rw [k3, k1]
    simp [restrictTo, List.filter_append, filter_out_under]

end Enlighten
